import Mathlib

/-!
# Verification of the Snake AI Arena deterministic game engine

Shallow embedding of the core simulation engine of the repository
(`src/game/HeadlessGame.ts` and `src/game/utils.ts`):

* the seeded linear-congruential RNG (`SeededRandom`),
* the grid geometry helpers (`wrapPosition`, `distance`),
* food spawning (`HeadlessGame.spawnFood`),
* the per-frame step (`HeadlessGame.tick`), game construction, `reset`,
  `runToCompletion`, and `runBenchmark`.

Modelling conventions:

* JavaScript numbers that are used as machine integers are modelled as
  `Int`/`Nat` with the 31-bit truncation `% 2 ^ 31` written explicitly at
  the single place the source applies `& 0x7fffffff`.  (The model uses
  the exact integer product in the seed update; the JS double product
  coincides with it precisely while `seed * 1103515245 + 12345 < 2 ^ 53`
  and rounds above that bound, so the statements that assert the
  program's arithmetic of one RNG step carry that bound as a hypothesis
  or instantiate it at seeds inside it.)
* JavaScript fractional values (`next()` results, `performance.now()`
  durations) are modelled as exact rationals.
* The user-supplied decision function is modelled by the outcome the
  engine observes on one call: the value returned (a direction or null),
  a thrown exception, together with the measured wall-clock duration.
  Real time itself is not modelled; the duration is an input.
-/

set_option maxRecDepth 8000

/-- `Position` / `Direction` of `src/game/types.ts`: a plain `{x, y, z}`
integer triple.  The engine never validates that a direction is a unit
step, so both share one type. -/
structure Pos3 where
  x : Int
  y : Int
  z : Int
deriving DecidableEq, Repr, Inhabited

/-- The death reasons the engine writes into `deathReason`
(`'timeout'`, `'algorithm too slow (..ms per frame)'`,
`'algorithm error: ..'`, `'no valid move'`, `'self collision'`).
The variable parts of the strings are carried as payloads. -/
inductive DeathReason where
  | timeout : DeathReason
  | tooSlow (ms : Int) : DeathReason
  | algError (msg : String) : DeathReason
  | noValidMove : DeathReason
  | selfCollision : DeathReason
deriving DecidableEq, Repr

/-- What one call of the decision function produced: either it returned a
value (`Direction | null`, modelled by `Option Pos3`) or it threw. -/
inductive AlgResult where
  | ret (d : Option Pos3) : AlgResult
  | throw (msg : String) : AlgResult
deriving DecidableEq, Repr

/-- One observed call of the decision function: its result together with
the wall-clock time the call took (the `performance.now()` difference in
milliseconds, an exact rational here). -/
structure Outcome where
  result : AlgResult
  elapsed : ℚ
deriving DecidableEq, Repr

/-! ## Seeded RNG (`SeededRandom`) -/

/-- `SeededRandom.next`, seed update part:
`this.seed = (this.seed * 1103515245 + 12345) & 0x7fffffff`.
The product is taken exactly here; the JS double product equals it
precisely while `s * 1103515245 + 12345 < 2 ^ 53` (seeds up to 8162774)
and rounds for larger seeds, so theorems about the program's update
arithmetic restrict themselves to that domain. -/
def nextSeed (s : Nat) : Nat :=
  (s * 1103515245 + 12345) % 2 ^ 31

/-- `SeededRandom.next`, returned value: `this.seed / 0x7fffffff` after
the update.  Note the code divides by `0x7fffffff = 2 ^ 31 - 1`. -/
def nextVal (s : Nat) : ℚ :=
  (nextSeed s : ℚ) / (2 ^ 31 - 1)

/-- `SeededRandom.nextInt(min, max)`:
`Math.floor(this.next() * (max - min + 1)) + min`.  Since `next()`
returns exactly `seed / (2 ^ 31 - 1)`, the floor equals the Euclidean
integer division below (the divisor is positive); the theorem
`nextIntVal_eq_floor` states the source-shaped form, and this integer
form keeps the whole engine computable by the kernel. -/
def nextIntVal (s : Nat) (lo hi : Int) : Int :=
  (nextSeed s : Int) * (hi - lo + 1) / (2 ^ 31 - 1) + lo

/-! ## Grid geometry (`src/game/utils.ts`) -/

/-- `wrapPosition`'s per-axis loop: add/subtract 16 until the value lies
in `[-8, 8)`; equivalently `((v + 8) mod 16) - 8` with Euclidean mod. -/
def wrapCoord (v : Int) : Int :=
  (v + 8) % 16 - 8

/-- `wrapPosition`. -/
def wrap (p : Pos3) : Pos3 :=
  ⟨wrapCoord p.x, wrapCoord p.y, wrapCoord p.z⟩

/-- `distance`: wrapped Manhattan distance, per axis
`min(|a_i - b_i|, GRID_SIZE - |a_i - b_i|)` with `GRID_SIZE = 16`. -/
def distance (a b : Pos3) : Int :=
  min ((a.x - b.x).natAbs : Int) (16 - ((a.x - b.x).natAbs : Int)) +
  min ((a.y - b.y).natAbs : Int) (16 - ((a.y - b.y).natAbs : Int)) +
  min ((a.z - b.z).natAbs : Int) (16 - ((a.z - b.z).natAbs : Int))

/-- A position is on the 16×16×16 grid when every coordinate lies in
`[-8, 8)`. -/
def inGrid (p : Pos3) : Prop :=
  -8 ≤ p.x ∧ p.x ≤ 7 ∧ -8 ≤ p.y ∧ p.y ≤ 7 ∧ -8 ≤ p.z ∧ p.z ≤ 7

instance (p : Pos3) : Decidable (inGrid p) := by
  unfold inGrid; infer_instance

/-- The sixteen grid coordinates `-8, -7, …, 7` in ascending order. -/
def coordRange : List Int :=
  (List.range 16).map (fun i : Nat => (i : Int) - 8)

/-- All 4096 grid cells, enumerated in the order of the systematic scan
in `spawnFood` (`x` outermost, then `y`, then `z`, each ascending). -/
def gridCells : List Pos3 :=
  coordRange.flatMap fun x =>
    coordRange.flatMap fun y =>
      coordRange.map fun z => ⟨x, y, z⟩

/-! ## Food spawning (`HeadlessGame.spawnFood`) -/

/-- One random candidate position: three `nextInt(-HALF_GRID,
HALF_GRID - 1)` draws, threading the RNG seed. -/
def randPos (s : Nat) : Pos3 × Nat :=
  let x := nextIntVal s (-8) 7
  let s1 := nextSeed s
  let y := nextIntVal s1 (-8) 7
  let s2 := nextSeed s1
  let z := nextIntVal s2 (-8) 7
  (⟨x, y, z⟩, nextSeed s2)

/-- The `do … while (occupied.has(posKey(pos)) && attempts < 1000)` loop
of `spawnFood`: `fuel` is the number of samples still allowed (1000 at
entry); the loop always samples once, and resamples while the candidate
is occupied and the attempt budget is not exhausted. -/
def spawnLoop (occ : List Pos3) : Nat → Nat → Pos3 × Nat
  | fuel, s =>
    let r := randPos s
    match fuel with
    | 0 => r
    | 1 => r
    | f + 2 =>
      if r.1 ∈ occ then spawnLoop occ (f + 1) r.2 else r

/-- The systematic fallback scan of `spawnFood`: the first free cell in
scan order, if any. -/
def scanFree (occ : List Pos3) : Option Pos3 :=
  gridCells.find? fun p => decide (p ∉ occ)

/-- `HeadlessGame.spawnFood`: random sampling with a 1000-attempt budget,
then a systematic scan; if the grid is completely occupied the scan loop
leaves `pos = {7,7,7}` (the last cell visited) and that is returned. -/
def spawnFood (snake : List Pos3) (s : Nat) : Pos3 × Nat :=
  let r := spawnLoop snake 1000 s
  if r.1 ∈ snake then ((scanFree snake).getD ⟨7, 7, 7⟩, r.2) else r

/-! ## Engine state and tick -/

/-- The private state of a `HeadlessGame` instance (the decision function
itself is kept outside the state; `seed` is the `SeededRandom` state). -/
structure GameState where
  snake : List Pos3
  food : Pos3
  score : Nat
  frame : Nat
  gameOver : Bool
  deathReason : Option DeathReason
  seed : Nat
  maxFrames : Nat
deriving DecidableEq, Repr

/-- The snapshot returned by `HeadlessGame.getState()`. -/
structure Snapshot where
  snake : List Pos3
  food : Pos3
  score : Nat
  frame : Nat
  gameOver : Bool
  deathReason : Option DeathReason
deriving DecidableEq, Repr

/-- `HeadlessGame.getState()`. -/
def getState (g : GameState) : Snapshot :=
  ⟨g.snake, g.food, g.score, g.frame, g.gameOver, g.deathReason⟩

/-- The initial three-segment snake of the constructor and of `reset`. -/
def initSnake : List Pos3 :=
  [⟨0, 0, 0⟩, ⟨-1, 0, 0⟩, ⟨-2, 0, 0⟩]

/-- The `HeadlessGame` constructor with explicit seed and frame limit
(the source defaults are `Date.now()` and `MAX_FRAMES = 25000`). -/
def mkGame (seed maxFrames : Nat) : GameState :=
  let fs := spawnFood initSnake seed
  { snake := initSnake, food := fs.1, score := 0, frame := 0,
    gameOver := false, deathReason := none, seed := fs.2,
    maxFrames := maxFrames }

/-- `HeadlessGame.reset(seed?)`: a fresh RNG when a seed is supplied,
otherwise the current RNG state is kept; everything else reinitialized. -/
def resetGame (g : GameState) (s : Option Nat) : GameState :=
  let sd := match s with
    | some v => v
    | none => g.seed
  let fs := spawnFood initSnake sd
  { snake := initSnake, food := fs.1, score := 0, frame := 0,
    gameOver := false, deathReason := none, seed := fs.2,
    maxFrames := g.maxFrames }

/-- `Math.round` on a nonnegative duration (halves round up), used for
the millisecond count in the `algorithm too slow` reason. -/
def jsRound (q : ℚ) : Int :=
  ⌊q + 1 / 2⌋

/-- `HeadlessGame.tick()`, with the decision function call replaced by
its observed outcome `o`.  Follows the source line by line: no-op when
over; frame increment; frame-limit check; error / slowness / null checks
on the decision result; wrapped head move; self-collision against the
body minus the tail unless the move eats; growth plus food respawn on
eating, tail pop otherwise. -/
def tickO (g : GameState) (o : Outcome) : GameState :=
  if g.gameOver then g
  else
    let g1 : GameState := { g with frame := g.frame + 1 }
    if g1.maxFrames ≤ g1.frame then
      { g1 with gameOver := true, deathReason := some .timeout }
    else
      match o.result with
      | .throw msg =>
        { g1 with gameOver := true, deathReason := some (.algError msg) }
      | .ret od =>
        if 100 < o.elapsed then
          { g1 with gameOver := true,
                    deathReason := some (.tooSlow (jsRound o.elapsed)) }
        else
          match od with
          | none =>
            { g1 with gameOver := true, deathReason := some .noValidMove }
          | some d =>
            let head := g1.snake.headI
            let newHead := wrap ⟨head.x + d.x, head.y + d.y, head.z + d.z⟩
            let willEat := newHead = g1.food
            let bodyToCheck := if willEat then g1.snake else g1.snake.dropLast
            if newHead ∈ bodyToCheck then
              { g1 with gameOver := true,
                        deathReason := some .selfCollision }
            else
              let snake1 := newHead :: g1.snake
              if willEat then
                let fs := spawnFood snake1 g1.seed
                { g1 with snake := snake1, score := g1.score + 10,
                          food := fs.1, seed := fs.2 }
              else
                { g1 with snake := snake1.dropLast }

/-- The read-only context handed to the decision function (built from the
state with the frame counter already incremented, as in the source). -/
structure GameCtx where
  snake : List Pos3
  food : Pos3
  gridSize : Nat
  score : Nat
  frame : Nat
deriving Repr

/-- The context `tick()` passes to the algorithm. -/
def ctxOf (g : GameState) : GameCtx :=
  ⟨g.snake, g.food, 16, g.score, g.frame⟩

/-- A decision function as the engine sees it: context in, observed
outcome (returned value or exception, plus measured duration) out. -/
def Algorithm : Type :=
  GameCtx → Outcome

/-- `tick()` driven by a decision function: the outcome is the function's
value on the context of the incremented frame (on the no-op and timeout
paths that value is never consulted, as in the source). -/
def tickA (alg : Algorithm) (g : GameState) : GameState :=
  tickO g (alg (ctxOf { g with frame := g.frame + 1 }))

/-- The `while (!this.gameOver) this.tick()` loop with an explicit fuel
bound; it stops at the first game-over state. -/
def runLoop (alg : Algorithm) : Nat → GameState → GameState
  | 0, g => g
  | fuel + 1, g => if g.gameOver then g else runLoop alg fuel (tickA alg g)

/-- `HeadlessGame.runToCompletion()`.  The loop reaches a game-over state
in at most `maxFrames + 1` ticks from any state (proved below), so with
this fuel `runLoop` computes the loop's exact fixpoint. -/
def runToCompletion (alg : Algorithm) (g : GameState) : GameState :=
  runLoop alg (g.maxFrames + 2) g

/-! ## Benchmark (`runBenchmark`) -/

/-- The final snapshots of the benchmark's `numGames` sequential games,
seeds `startSeed, startSeed + 1, …`; each game is a fresh
`HeadlessGame(algorithm, startSeed + i)` with the default frame limit. -/
def benchGames (alg : Algorithm) (numGames startSeed : Nat) : List Snapshot :=
  (List.range numGames).map fun i =>
    getState (runToCompletion alg (mkGame (startSeed + i) 25000))

/-- The record `runBenchmark` returns.  `maxScore` is `Math.max(...scores)`,
which on a nonempty list is its maximum (the empty case would be
`-Infinity`, which has no integer counterpart and never occurs for
`numGames ≥ 1`).  `avgScore` and `survivalRate` are exact rationals. -/
structure BenchResult where
  scores : List Nat
  avgScore : ℚ
  maxScore : Option Nat
  survivalRate : ℚ
deriving Repr

/-- `runBenchmark(algorithm, numGames, startSeed)`. -/
def runBenchmark (alg : Algorithm) (numGames startSeed : Nat) : BenchResult :=
  let finals := benchGames alg numGames startSeed
  let scores := finals.map Snapshot.score
  let survivals :=
    (finals.filter fun st => st.deathReason = some .timeout).length
  { scores := scores,
    avgScore := ((scores.foldl (· + ·) 0 : Nat) : ℚ) / (scores.length : ℚ),
    maxScore := scores.maximum,
    survivalRate := ((survivals : ℚ) / (numGames : ℚ)) * 100 }

/-! ## Reachable states -/

/-- The states a `HeadlessGame` instance can be in: just constructed,
after any tick (with any decision-function behavior, including malformed
directions, exceptions and slow calls), or after any `reset`. -/
inductive Reachable : GameState → Prop
  | init (s mf : Nat) : Reachable (mkGame s mf)
  | tick (g : GameState) (o : Outcome) : Reachable g → Reachable (tickO g o)
  | reset (g : GameState) (s : Option Nat) :
      Reachable g → Reachable (resetGame g s)

/-- The snapshots returned by a sequence of ticks whose decision calls
produced the given outcomes, in order. -/
def snapTrace (g : GameState) : List Outcome → List Snapshot
  | [] => []
  | o :: os => getState (tickO g o) :: snapTrace (tickO g o) os

/-- A decision function that always returns the direction `(-1,0,0)`
(straight back into the snake's neck), instantly. -/
def backAlg : Algorithm :=
  fun _ => ⟨.ret (some ⟨-1, 0, 0⟩), 0⟩

/-- A decision function that always returns `null`, instantly. -/
def nullAlg : Algorithm :=
  fun _ => ⟨.ret none, 0⟩

/-! ## Material for analysing the RNG orbit and the full-grid state -/

/-- The partial sums `1 + a + a² + … + a^(m-1)` of powers of the LCG
multiplier `a = 1103515245`. -/
def geomS : Nat → Nat
  | 0 => 0
  | m + 1 => 1 + 1103515245 * geomS m

/-- The largest 31-bit seed value, `0x7fffffff`: the unique seed state at
which `next()` returns exactly 1. -/
def badSeed : Nat :=
  2 ^ 31 - 1

/-- The seed state immediately after `badSeed`.  Since the LCG has full
period `2 ^ 31` (Hull–Dobell: odd increment, multiplier `≡ 1 mod 4`),
the orbit starting here avoids `badSeed` for `2 ^ 31 - 1` steps. -/
def orbitSeed : Nat :=
  nextSeed badSeed

/-- The componentwise difference `b - a`: the (not necessarily
unit-length) direction a decision function can return to move the head
from `a` directly onto `b`; the engine performs no validation. -/
def dirTo (a b : Pos3) : Pos3 :=
  ⟨b.x - a.x, b.y - a.y, b.z - a.z⟩

/-- A decision function that always jumps the head straight onto the
food, exploiting the engine's missing direction validation.  Every tick
eats, so the snake grows by one cell per frame. -/
def greedyTeleport : Algorithm :=
  fun ctx => ⟨.ret (some (dirTo ctx.snake.headI ctx.food)), 0⟩

/-- The run of `greedyTeleport` from a fresh game with seed `orbitSeed`
and the default frame limit: after `k` ticks the snake has `3 + k`
cells, and after 4093 ticks it fills the whole 4096-cell grid. -/
def fullTrace (k : Nat) : GameState :=
  (tickA greedyTeleport)^[k] (mkGame orbitSeed 25000)

/-! ## Basic facts about the RNG -/

/-- The updated seed is a 31-bit value. -/
theorem nextSeed_lt (s : Nat) : nextSeed s < 2 ^ 31 :=
  Nat.mod_lt _ (by norm_num)

/-- `nextInt` as written in the source: the integer division in
`nextIntVal` is exactly `Math.floor(next() * (max - min + 1)) + min`. -/
theorem nextIntVal_eq_floor (s : Nat) (lo hi : Int) :
    nextIntVal s lo hi = ⌊nextVal s * ((hi : ℚ) - lo + 1)⌋ + lo := by
  unfold nextIntVal nextVal
  have h1 : (nextSeed s : ℚ) / (2 ^ 31 - 1) * ((hi : ℚ) - lo + 1)
      = (((nextSeed s : Int) * (hi - lo + 1) : Int) : ℚ)
        / ((2147483647 : ℕ) : ℚ) := by
    push_cast
    ring
  rw [h1, Rat.floor_intCast_div_natCast]
  norm_num

/-- `next()` is nonnegative. -/
theorem nextVal_nonneg (s : Nat) : 0 ≤ nextVal s :=
  div_nonneg (by positivity) (by norm_num)

/-- `next()` never exceeds 1 (the divisor `0x7fffffff = 2 ^ 31 - 1`
equals the largest value the updated seed can take, so the bound 1 is
the best unconditional one for the formula). -/
theorem nextVal_le_one (s : Nat) : nextVal s ≤ 1 := by
  unfold nextVal
  rw [div_le_one (by norm_num)]
  have h : nextSeed s + 1 ≤ 2 ^ 31 := nextSeed_lt s
  have h2 : (nextSeed s : ℚ) + 1 ≤ 2 ^ 31 := by exact_mod_cast h
  linarith

/-- `next()` is strictly below 1 whenever the updated seed is not the
extreme value `2 ^ 31 - 1`. -/
theorem nextVal_lt_one (s : Nat) (h : nextSeed s ≠ 2 ^ 31 - 1) :
    nextVal s < 1 := by
  unfold nextVal
  rw [div_lt_one (by norm_num)]
  have hlt := nextSeed_lt s
  have h1 : nextSeed s + 2 ≤ 2 ^ 31 := by omega
  have h2 : (nextSeed s : ℚ) + 2 ≤ 2 ^ 31 := by exact_mod_cast h1
  linarith

/-- `nextInt(lo, hi)` stays inside `[lo, hi]` as long as the updated
seed is not the extreme value (so that `next() < 1`). -/
theorem nextIntVal_bounds (s : Nat) (lo hi : Int) (hle : lo ≤ hi)
    (hbad : nextSeed s ≠ 2 ^ 31 - 1) :
    lo ≤ nextIntVal s lo hi ∧ nextIntVal s lo hi ≤ hi := by
  have hq0 := nextVal_nonneg s
  have hq1 := nextVal_lt_one s hbad
  have hLq : (1 : ℚ) ≤ (hi : ℚ) - lo + 1 := by
    have h : (lo : ℚ) ≤ (hi : ℚ) := by exact_mod_cast hle
    linarith
  have hfl := nextIntVal_eq_floor s lo hi
  constructor
  · rw [hfl]
    have h0 : (0 : Int) ≤ ⌊nextVal s * ((hi : ℚ) - lo + 1)⌋ :=
      Int.floor_nonneg.2 (mul_nonneg hq0 (by linarith))
    omega
  · rw [hfl]
    have hlt : nextVal s * ((hi : ℚ) - lo + 1) < (hi : ℚ) - lo + 1 :=
      mul_lt_of_lt_one_left (by linarith) hq1
    have h2 : ⌊nextVal s * ((hi : ℚ) - lo + 1)⌋ < hi - lo + 1 := by
      apply Int.floor_lt.2
      push_cast
      exact hlt
    omega

/-! ## Facts about food spawning -/

/-- If `spawnFood` places the food on an occupied cell, then every grid
cell was occupied: the post-loop check sends every occupied candidate to
the systematic scan, which returns a free cell whenever one exists. -/
theorem spawnFood_mem (occ : List Pos3) (s : Nat)
    (h : (spawnFood occ s).1 ∈ occ) : ∀ p ∈ gridCells, p ∈ occ := by
  unfold spawnFood at h
  by_cases hr : (spawnLoop occ 1000 s).1 ∈ occ
  · rw [if_pos hr] at h
    cases hs : scanFree occ with
    | none =>
      intro p hp
      have := List.find?_eq_none.mp hs p hp
      simpa using this
    | some q =>
      exfalso
      rw [hs] at h
      simp only [Option.getD_some] at h
      have := List.find?_some hs
      simp at this
      exact this h
  · rw [if_neg hr] at h
    exact absurd h hr

/-- A freshly constructed game never has its food on the snake. -/
theorem mkGame_food_not_mem (s mf : Nat) : (mkGame s mf).food ∉ initSnake := by
  intro h
  have h2 : (⟨-8, -8, -8⟩ : Pos3) ∈ initSnake :=
    spawnFood_mem initSnake s h ⟨-8, -8, -8⟩ (by decide)
  exact absurd h2 (by decide)

/-! ## Snapshot traces -/

/-- **C1.** The engine has no hidden source of nondeterminism: its state
is a function of the construction seed, the frame limit, and the
decision-function outcomes it is fed (the wall-clock duration of each
call being part of the fed outcome).  Two engines constructed with the
same seed and fed the same outcome sequence return identical snapshots —
body, food, score, frame, game-over flag and reason, and in particular
identical food-spawn positions — at every tick. -/
theorem c1_engine_deterministic (s mf : Nat) (outs : List Outcome)
    (g1 g2 : GameState) (h1 : g1 = mkGame s mf) (h2 : g2 = mkGame s mf) :
    snapTrace g1 outs = snapTrace g2 outs := by
  subst h1
  subst h2
  rfl

/-- Witness for C1 at seed 7 and two concrete ticks. -/
theorem c1_engine_deterministic_witness :
    snapTrace (mkGame 7 25000)
        [⟨.ret (some ⟨1, 0, 0⟩), 0⟩, ⟨.ret none, 0⟩]
      = snapTrace (mkGame 7 25000)
        [⟨.ret (some ⟨1, 0, 0⟩), 0⟩, ⟨.ret none, 0⟩] :=
  c1_engine_deterministic 7 25000 _ _ _ rfl rfl

/-! ## Branch lemmas for `tick` -/

/-- Ticking a finished game changes nothing. -/
theorem tickO_gameOver (g : GameState) (o : Outcome) (h : g.gameOver = true) :
    tickO g o = g := by
  unfold tickO
  rw [h]
  simp

/-- A tick that hits the frame limit. -/
theorem tickO_timeout (g : GameState) (o : Outcome)
    (hov : g.gameOver = false) (hfr : g.maxFrames ≤ g.frame + 1) :
    tickO g o = { g with frame := g.frame + 1, gameOver := true,
                         deathReason := some .timeout } := by
  unfold tickO
  rw [hov]
  simp [hfr]

/-- A tick on which the decision function threw. -/
theorem tickO_throw (g : GameState) (msg : String) (e : ℚ)
    (hov : g.gameOver = false) (hfr : g.frame + 1 < g.maxFrames) :
    tickO g ⟨.throw msg, e⟩
      = { g with frame := g.frame + 1, gameOver := true,
                 deathReason := some (.algError msg) } := by
  unfold tickO
  rw [hov]
  simp [Nat.not_le.2 hfr]

/-- A tick on which the decision call exceeded the 100 ms budget. -/
theorem tickO_slow (g : GameState) (od : Option Pos3) (e : ℚ)
    (hov : g.gameOver = false) (hfr : g.frame + 1 < g.maxFrames)
    (he : 100 < e) :
    tickO g ⟨.ret od, e⟩
      = { g with frame := g.frame + 1, gameOver := true,
                 deathReason := some (.tooSlow (jsRound e)) } := by
  unfold tickO
  rw [hov]
  simp [Nat.not_le.2 hfr, he]

/-- A tick on which the decision function returned `null`. -/
theorem tickO_null (g : GameState) (e : ℚ)
    (hov : g.gameOver = false) (hfr : g.frame + 1 < g.maxFrames)
    (he : e ≤ 100) :
    tickO g ⟨.ret none, e⟩
      = { g with frame := g.frame + 1, gameOver := true,
                 deathReason := some .noValidMove } := by
  unfold tickO
  rw [hov]
  simp [Nat.not_le.2 hfr, not_lt.2 he]

/-- A tick on which the decision function returned a direction in time:
the move is evaluated — self-collision against the body (minus the tail
unless eating), else growth with a food respawn, else a plain move. -/
theorem tickO_move (g : GameState) (d : Pos3) (e : ℚ)
    (hov : g.gameOver = false) (hfr : g.frame + 1 < g.maxFrames)
    (he : e ≤ 100) :
    tickO g ⟨.ret (some d), e⟩
      = (let head := g.snake.headI
         let newHead := wrap ⟨head.x + d.x, head.y + d.y, head.z + d.z⟩
         if newHead ∈ (if newHead = g.food then g.snake else g.snake.dropLast)
         then
           { g with frame := g.frame + 1, gameOver := true,
                    deathReason := some .selfCollision }
         else if newHead = g.food then
           { g with frame := g.frame + 1, snake := newHead :: g.snake,
                    score := g.score + 10,
                    food := (spawnFood (newHead :: g.snake) g.seed).1,
                    seed := (spawnFood (newHead :: g.snake) g.seed).2 }
         else
           { g with frame := g.frame + 1,
                    snake := (newHead :: g.snake).dropLast }) := by
  obtain ⟨sn, fo, sc, fr, go, dr, sd, mf⟩ := g
  simp only [GameState.gameOver] at hov
  subst hov
  simp only [GameState.frame, GameState.maxFrames] at hfr
  simp [tickO, Nat.not_le.2 hfr, not_lt.2 he]

/-- **C2, counterexample.** `next()` divides the updated seed by
`0x7fffffff = 2 ^ 31 - 1`, not by `2 ^ 31`, so the claim's value
formula is wrong.  The witness input is seed 1: there every
intermediate of the update (`1 * 1103515245 + 12345 = 1103527590`) is
far below `2 ^ 53`, so the JS double arithmetic of the program is
exact and agrees with this model, and the returned value is
`1103527590 / (2 ^ 31 - 1)`, not `1103527590 / 2 ^ 31`. -/
theorem c2_counterexample :
    nextSeed 1 = 1103527590 ∧
    1 * 1103515245 + 12345 < 2 ^ 53 ∧
    nextVal 1 = (1103527590 : ℚ) / (2 ^ 31 - 1) ∧
    nextVal 1 ≠ (nextSeed 1 : ℚ) / 2 ^ 31 := by
  have h : nextSeed 1 = 1103527590 := by decide
  refine ⟨h, by norm_num, ?_, ?_⟩
  · unfold nextVal
    rw [h]
    norm_num
  · unfold nextVal
    rw [h]
    norm_num

/-- **C2, amended.** For every seed whose update stays below the
`2 ^ 53` double-precision bound — where the program's JS arithmetic is
exact and coincides with this model (`hsmall`; beyond it the JS double
product rounds and the stated mod-`2 ^ 31` rule fails in the program) —
`next()` updates the seed by the stated linear-congruential rule but
returns `seed / (2 ^ 31 - 1)`, a value in `[0, 1]` that is strictly
below 1 — and hence
`nextInt(min,max) = floor(next() * (max - min + 1)) + min` lies in
`[min, max]` — whenever the updated seed is not `2 ^ 31 - 1`. -/
theorem c2_rng_amended (s : Nat) (lo hi : Int) (hle : lo ≤ hi)
    (hsmall : s * 1103515245 + 12345 < 2 ^ 53)
    (hbad : nextSeed s ≠ 2 ^ 31 - 1) :
    nextSeed s = (s * 1103515245 + 12345) % 2 ^ 31 ∧
    nextVal s = (nextSeed s : ℚ) / (2 ^ 31 - 1) ∧
    0 ≤ nextVal s ∧ nextVal s < 1 ∧
    nextIntVal s lo hi = ⌊nextVal s * ((hi : ℚ) - lo + 1)⌋ + lo ∧
    lo ≤ nextIntVal s lo hi ∧ nextIntVal s lo hi ≤ hi := by
  have hq0 := nextVal_nonneg s
  have hq1 := nextVal_lt_one s hbad
  have hfl := nextIntVal_eq_floor s lo hi
  obtain ⟨hb1, hb2⟩ := nextIntVal_bounds s lo hi hle hbad
  exact ⟨rfl, rfl, hq0, hq1, hfl, hb1, hb2⟩

/-- Witness for C2's amended statement at seed 1 (inside the
exact-arithmetic domain) with range `[-8, 7]`. -/
theorem c2_rng_amended_witness :
    (-8 : Int) ≤ 7 ∧ 1 * 1103515245 + 12345 < 2 ^ 53 ∧
    nextSeed 1 ≠ 2 ^ 31 - 1 ∧
    (nextSeed 1 = (1 * 1103515245 + 12345) % 2 ^ 31 ∧
     nextVal 1 = (nextSeed 1 : ℚ) / (2 ^ 31 - 1) ∧
     0 ≤ nextVal 1 ∧ nextVal 1 < 1 ∧
     nextIntVal 1 (-8) 7 = ⌊nextVal 1 * ((7 : ℚ) - (-8) + 1)⌋ + (-8) ∧
     (-8 : Int) ≤ nextIntVal 1 (-8) 7 ∧ nextIntVal 1 (-8) 7 ≤ 7) :=
  ⟨by decide, by norm_num, by decide,
    c2_rng_amended 1 (-8) 7 (by decide) (by norm_num) (by decide)⟩

/-- Helper for C4: the freshly spawned food is never the neck cell
`(-1,0,0)`, since that cell is on the initial snake. -/
theorem mkGame_food_ne_neck (s mf : Nat) :
    (⟨-1, 0, 0⟩ : Pos3) ≠ (mkGame s mf).food := by
  intro he
  exact mkGame_food_not_mem s mf
    (he ▸ (by decide : (⟨-1, 0, 0⟩ : Pos3) ∈ initSnake))

/-- **C4, counterexample.** With seed 1 and the default frame limit, a
decision function that always returns `(-1,0,0)` ends the game on the
very first tick (frame 1), not on tick 2: the head re-enters the neck
cell, which is still occupied even after the tail moves. -/
theorem c4_counterexample :
    (tickA backAlg (mkGame 1 25000)).gameOver = true ∧
    (tickA backAlg (mkGame 1 25000)).deathReason = some .selfCollision ∧
    (tickA backAlg (mkGame 1 25000)).frame = 1 := by
  refine ⟨by decide, by decide, by decide⟩

/-- **C4, amended.** From the initial body
`[(0,0,0),(-1,0,0),(-2,0,0)]`, a decision function that returns
`(-1,0,0)` on every tick ends the game with reason self-collision on
tick 1 (for any seed, and any frame limit of at least 2): the target
cell `(-1,0,0)` is the neck, which belongs to the obstacle set whether
or not the move would eat, and food can never occupy it. -/
theorem c4_back_self_collision (s mf : Nat) (h : 2 ≤ mf) :
    (tickA backAlg (mkGame s mf)).gameOver = true ∧
    (tickA backAlg (mkGame s mf)).deathReason = some .selfCollision ∧
    (tickA backAlg (mkGame s mf)).frame = 1 := by
  have hmv := tickO_move (mkGame s mf) ⟨-1, 0, 0⟩ 0 rfl
    (by simpa [mkGame] using h) (by norm_num)
  have htick : tickA backAlg (mkGame s mf) = tickO (mkGame s mf) ⟨.ret (some ⟨-1, 0, 0⟩), 0⟩ := rfl
  rw [htick, hmv]
  have hsn : (mkGame s mf).snake = initSnake := rfl
  have hhead : initSnake.headI = (⟨0, 0, 0⟩ : Pos3) := by decide
  have hwrap : wrap ⟨(0 : Int) + -1, 0 + 0, 0 + 0⟩ = (⟨-1, 0, 0⟩ : Pos3) := by decide
  simp only [hsn, hhead, hwrap]
  rw [if_neg (mkGame_food_ne_neck s mf)]
  rw [if_pos (by decide : (⟨-1, 0, 0⟩ : Pos3) ∈ initSnake.dropLast)]
  exact ⟨rfl, rfl, rfl⟩

/-- Witness for C4's amended statement at seed 1, frame limit 25000. -/
theorem c4_back_self_collision_witness :
    2 ≤ 25000 ∧
    ((tickA backAlg (mkGame 1 25000)).gameOver = true ∧
     (tickA backAlg (mkGame 1 25000)).deathReason = some .selfCollision ∧
     (tickA backAlg (mkGame 1 25000)).frame = 1) :=
  ⟨by decide, c4_back_self_collision 1 25000 (by decide)⟩

/-- **C5.** On a tick where the decision function returns a direction
(in time, with the game running and the frame limit not reached), the
engine transitions to game over with reason self-collision if and only
if the wrapped new head lies in the obstacle set: the full body when the
new head equals the food (the move would eat, so the tail stays), and
the full body minus the tail cell otherwise. -/
theorem c5_self_collision_iff (g : GameState) (d : Pos3) (e : ℚ)
    (hov : g.gameOver = false) (hfr : g.frame + 1 < g.maxFrames)
    (he : e ≤ 100) :
    ((tickO g ⟨.ret (some d), e⟩).gameOver = true ∧
     (tickO g ⟨.ret (some d), e⟩).deathReason = some .selfCollision) ↔
      wrap ⟨g.snake.headI.x + d.x, g.snake.headI.y + d.y,
            g.snake.headI.z + d.z⟩ ∈
        (if wrap ⟨g.snake.headI.x + d.x, g.snake.headI.y + d.y,
                  g.snake.headI.z + d.z⟩ = g.food
         then g.snake else g.snake.dropLast) := by
  rw [tickO_move g d e hov hfr he]
  constructor
  · intro hcol
    by_contra hmem
    rw [if_neg hmem] at hcol
    by_cases hw : wrap ⟨g.snake.headI.x + d.x, g.snake.headI.y + d.y,
        g.snake.headI.z + d.z⟩ = g.food
    · rw [if_pos hw] at hcol
      exact absurd hcol.1 (by simp [hov])
    · rw [if_neg hw] at hcol
      exact absurd hcol.1 (by simp [hov])
  · intro hmem
    rw [if_pos hmem]
    exact ⟨rfl, rfl⟩

/-- Witness for C5: the immediate backward move from the fresh game of
seed 1 collides, and the obstacle-set membership test agrees. -/
theorem c5_self_collision_iff_witness :
    (mkGame 1 25000).gameOver = false ∧
    (mkGame 1 25000).frame + 1 < (mkGame 1 25000).maxFrames ∧
    (0 : ℚ) ≤ 100 ∧
    (((tickO (mkGame 1 25000) ⟨.ret (some ⟨-1, 0, 0⟩), 0⟩).gameOver = true ∧
      (tickO (mkGame 1 25000) ⟨.ret (some ⟨-1, 0, 0⟩), 0⟩).deathReason
        = some .selfCollision) ↔
      wrap ⟨(mkGame 1 25000).snake.headI.x + (-1),
            (mkGame 1 25000).snake.headI.y + 0,
            (mkGame 1 25000).snake.headI.z + 0⟩ ∈
        (if wrap ⟨(mkGame 1 25000).snake.headI.x + (-1),
                  (mkGame 1 25000).snake.headI.y + 0,
                  (mkGame 1 25000).snake.headI.z + 0⟩ = (mkGame 1 25000).food
         then (mkGame 1 25000).snake else (mkGame 1 25000).snake.dropLast)) :=
  ⟨rfl, by decide, by norm_num,
    c5_self_collision_iff (mkGame 1 25000) ⟨-1, 0, 0⟩ 0 rfl (by decide)
      (by norm_num)⟩

/-- **C8.** Once the game-over flag is set, every later `tick()` is a
no-op: the state — body, food, score, frame counter, reason — is
unchanged, the returned snapshot equals the current one, and the result
does not depend on the decision function (it is never invoked). -/
theorem c8_gameOver_noop (g : GameState) (o : Outcome) (alg : Algorithm)
    (h : g.gameOver = true) :
    tickO g o = g ∧ tickA alg g = g ∧
    getState (tickA alg g) = getState g := by
  have h1 : tickO g o = g := tickO_gameOver g o h
  have h2 : tickA alg g = g := tickO_gameOver g _ h
  exact ⟨h1, h2, by rw [h2]⟩

/-- Witness for C8 on the finished game reached by a first `null` tick. -/
theorem c8_gameOver_noop_witness :
    (tickA nullAlg (mkGame 1 25000)).gameOver = true ∧
    (tickO (tickA nullAlg (mkGame 1 25000)) ⟨.ret (some ⟨1, 0, 0⟩), 0⟩
        = tickA nullAlg (mkGame 1 25000) ∧
     tickA backAlg (tickA nullAlg (mkGame 1 25000))
        = tickA nullAlg (mkGame 1 25000) ∧
     getState (tickA backAlg (tickA nullAlg (mkGame 1 25000)))
        = getState (tickA nullAlg (mkGame 1 25000))) :=
  ⟨by decide,
    c8_gameOver_noop (tickA nullAlg (mkGame 1 25000))
      ⟨.ret (some ⟨1, 0, 0⟩), 0⟩ backAlg (by decide)⟩

/-- **C9.** `distance` is symmetric, and for grid positions it vanishes
exactly on equal positions (each wrapped per-axis term is zero only for
a zero coordinate difference, since the difference of two in-range
coordinates never reaches ±16). -/
theorem c9_distance_symm_zero (a b : Pos3) (ha : inGrid a) (hb : inGrid b) :
    distance a b = distance b a ∧ (distance a b = 0 ↔ a = b) := by
  obtain ⟨ax, ay, az⟩ := a
  obtain ⟨bx, b2, b3⟩ := b
  simp only [distance, inGrid, Pos3.mk.injEq] at *
  omega

/-- Witness for C9 at two concrete grid cells. -/
theorem c9_distance_symm_zero_witness :
    inGrid ⟨7, 0, -8⟩ ∧ inGrid ⟨-8, 3, 5⟩ ∧
    (distance ⟨7, 0, -8⟩ ⟨-8, 3, 5⟩ = distance ⟨-8, 3, 5⟩ ⟨7, 0, -8⟩ ∧
     (distance ⟨7, 0, -8⟩ ⟨-8, 3, 5⟩ = 0 ↔ (⟨7, 0, -8⟩ : Pos3) = ⟨-8, 3, 5⟩)) :=
  ⟨by decide, by decide,
    c9_distance_symm_zero ⟨7, 0, -8⟩ ⟨-8, 3, 5⟩ (by decide) (by decide)⟩

/-- **C3.** The benchmark's `scores` list has exactly `numGames` entries
and `avgScore` is their exact arithmetic mean (sum divided by count, no
rounding in this layer; rational arithmetic in the model). -/
theorem c3_benchmark_avg (alg : Algorithm) (n s0 : Nat) :
    (runBenchmark alg n s0).scores.length = n ∧
    (runBenchmark alg n s0).avgScore
      = (((runBenchmark alg n s0).scores.sum : Nat) : ℚ) / (n : ℚ) := by
  have hlen : (runBenchmark alg n s0).scores.length = n := by
    simp [runBenchmark, benchGames]
  refine ⟨hlen, ?_⟩
  have hfold : ((runBenchmark alg n s0).scores.foldl (· + ·) 0 : Nat)
      = (runBenchmark alg n s0).scores.sum :=
    (List.sum_eq_foldl).symm
  show (((runBenchmark alg n s0).scores.foldl (· + ·) 0 : Nat) : ℚ)
      / ((runBenchmark alg n s0).scores.length : ℚ) = _
  rw [hfold, hlen]

/-- Witness for C3 at `numGames = 5`: five entries, exact mean. -/
theorem c3_benchmark_avg_witness :
    (runBenchmark nullAlg 5 1).scores.length = 5 ∧
    (runBenchmark nullAlg 5 1).avgScore
      = (((runBenchmark nullAlg 5 1).scores.sum : Nat) : ℚ) / (5 : ℚ) :=
  c3_benchmark_avg nullAlg 5 1

/-! ## Termination of `runToCompletion` -/

/-- Every tick branch keeps the frame limit. -/
theorem tickO_maxFrames (g : GameState) (o : Outcome) :
    (tickO g o).maxFrames = g.maxFrames := by
  obtain ⟨sn, fo, sc, fr, go, dr, sd, mf⟩ := g
  unfold tickO
  dsimp only
  repeat' split
  all_goals rfl

/-- A tick of a running game increments the frame counter, whatever the
decision outcome. -/
theorem tickO_frame (g : GameState) (o : Outcome)
    (hov : g.gameOver = false) :
    (tickO g o).frame = g.frame + 1 := by
  obtain ⟨sn, fo, sc, fr, go, dr, sd, mf⟩ := g
  simp only [GameState.gameOver] at hov
  subst hov
  unfold tickO
  dsimp only
  repeat' split
  all_goals first
  | rfl
  | simp_all

/-- `tick()` driven by any decision function is a no-op once the game is
over. -/
theorem tickA_gameOver (alg : Algorithm) (g : GameState)
    (h : g.gameOver = true) : tickA alg g = g :=
  tickO_gameOver g _ h

/-- A running game at the frame limit is over after one tick, whatever
the decision outcome. -/
theorem tickA_limit_over (alg : Algorithm) (g : GameState)
    (hov : g.gameOver = false) (hfr : g.maxFrames ≤ g.frame + 1) :
    (tickA alg g).gameOver = true := by
  unfold tickA
  rw [tickO_timeout _ _ hov hfr]

/-- Iterating ticks from a finished game changes nothing. -/
theorem iterate_tickA_gameOver (alg : Algorithm) (g : GameState)
    (h : g.gameOver = true) (k : Nat) : (tickA alg)^[k] g = g := by
  induction k with
  | zero => rfl
  | succ k ih =>
    rw [Function.iterate_succ_apply, tickA_gameOver alg g h]
    exact ih

/-- From any state, `f` more ticks reach game over as soon as
`maxFrames ≤ frame + f`: the frame counter rises by one per live tick
and the limit check fires no later than frame `maxFrames`. -/
theorem iterate_tickA_over (alg : Algorithm) :
    ∀ (f : Nat) (g : GameState), g.maxFrames ≤ g.frame + f → 0 < f →
      ((tickA alg)^[f] g).gameOver = true := by
  intro f
  induction f with
  | zero => intro g _ h0; exact absurd h0 (by omega)
  | succ f ih =>
    intro g hb _
    by_cases hov : g.gameOver = true
    · rw [iterate_tickA_gameOver alg g hov]
      exact hov
    · have hov' : g.gameOver = false := by
        simpa using hov
      rw [Function.iterate_succ_apply]
      by_cases hend : (tickA alg g).gameOver = true
      · rw [iterate_tickA_gameOver alg _ hend]
        exact hend
      · rcases Nat.eq_zero_or_pos f with hf | hf
        · subst hf
          exact absurd (tickA_limit_over alg g hov' (by omega)) hend
        · apply ih (tickA alg g) _ hf
          have h1 : (tickA alg g).frame = g.frame + 1 :=
            tickO_frame g _ hov'
          have h2 : (tickA alg g).maxFrames = g.maxFrames :=
            tickO_maxFrames g _
          omega

/-- A finished game is a fixpoint of the while loop, for any fuel. -/
theorem runLoop_gameOver (alg : Algorithm) (g : GameState)
    (h : g.gameOver = true) : ∀ f, runLoop alg f g = g := by
  intro f
  cases f with
  | zero => rfl
  | succ f => simp [runLoop, h]

/-- Once `f` ticks reach game over, the fueled while loop with any fuel
`≥ f` computes exactly the `f`-fold tick iterate: the loop's exit test
and tick order agree with the iterate. -/
theorem runLoop_eq_iterate (alg : Algorithm) :
    ∀ (f : Nat) (g : GameState) (fuel : Nat),
      ((tickA alg)^[f] g).gameOver = true → f ≤ fuel →
      runLoop alg fuel g = (tickA alg)^[f] g := by
  intro f
  induction f with
  | zero =>
    intro g fuel h _
    exact runLoop_gameOver alg g h fuel
  | succ f ih =>
    intro g fuel h hle
    by_cases hov : g.gameOver = true
    · rw [iterate_tickA_gameOver alg g hov]
      exact runLoop_gameOver alg g hov fuel
    · have hov' : g.gameOver = false := by simpa using hov
      obtain ⟨fuel', rfl⟩ : ∃ k, fuel = k + 1 := by
        cases fuel with
        | zero => omega
        | succ k => exact ⟨k, rfl⟩
      rw [Function.iterate_succ_apply] at h ⊢
      have hstep : runLoop alg (fuel' + 1) g = runLoop alg fuel' (tickA alg g) := by
        simp [runLoop, hov']
      rw [hstep]
      exact ih (tickA alg g) fuel' h (by omega)

/-- **C7, counterexample.** With frame limit 0 the game is not over
after `maxFrames = 0` ticks; the loop needs one more tick to stop, so
`runToCompletion` does not halt within `maxFrames` ticks for every
`maxFrames`. -/
theorem c7_counterexample :
    (mkGame 1 0).maxFrames = 0 ∧
    ((tickA nullAlg)^[0] (mkGame 1 0)).gameOver = false ∧
    (tickA nullAlg ((tickA nullAlg)^[0] (mkGame 1 0))).gameOver = true := by
  refine ⟨rfl, by decide, by decide⟩

/-- **C7, amended.** For every decision function (each call modelled as
a terminating outcome, valid, malformed, null, throwing or slow) and
every `maxFrames`, the game is over after at most `max maxFrames 1`
ticks, and `runToCompletion()` computes exactly that terminal state —
so it always halts, within `maxFrames` ticks whenever `maxFrames ≥ 1`. -/
theorem c7_termination (alg : Algorithm) (s mf : Nat) :
    ((tickA alg)^[max mf 1] (mkGame s mf)).gameOver = true ∧
    runToCompletion alg (mkGame s mf)
      = (tickA alg)^[max mf 1] (mkGame s mf) := by
  have h1 : ((tickA alg)^[max mf 1] (mkGame s mf)).gameOver = true := by
    apply iterate_tickA_over alg (max mf 1) (mkGame s mf)
    · have : (mkGame s mf).maxFrames = mf := rfl
      have : (mkGame s mf).frame = 0 := rfl
      omega
    · omega
  refine ⟨h1, ?_⟩
  unfold runToCompletion
  apply runLoop_eq_iterate alg _ _ _ h1
  have : (mkGame s mf).maxFrames = mf := rfl
  omega

/-! ## Score/length invariant -/

/-- **C10.** In every reachable engine state the body has at least its
initial 3 segments and the score is exactly 10 times the number of
segments gained since the last construction or reset — each tick either
leaves both untouched, or adds 10 points together with exactly one
segment (an eaten food).  In particular the score is a non-negative
multiple of 10. -/
theorem c10_score_invariant (g : GameState) (h : Reachable g) :
    3 ≤ g.snake.length ∧ g.score = 10 * (g.snake.length - 3) := by
  induction h with
  | init s mf =>
    refine ⟨?_, ?_⟩
    · rw [show (mkGame s mf).snake = initSnake from rfl]
      decide
    · rw [show (mkGame s mf).snake = initSnake from rfl,
        show (mkGame s mf).score = 0 from rfl]
      decide
  | reset g s hg ih =>
    refine ⟨?_, ?_⟩
    · cases s <;> rfl
    · cases s <;> rfl
  | tick g o hg ih =>
    obtain ⟨hlen, hsc⟩ := ih
    obtain ⟨res, e⟩ := o
    by_cases hov : g.gameOver = true
    · rw [tickO_gameOver g _ hov]
      exact ⟨hlen, hsc⟩
    · have hov' : g.gameOver = false := by simpa using hov
      by_cases hfr : g.maxFrames ≤ g.frame + 1
      · rw [tickO_timeout g _ hov' hfr]
        exact ⟨hlen, hsc⟩
      · have hfr' : g.frame + 1 < g.maxFrames := by omega
        cases res with
        | throw msg =>
          rw [tickO_throw g msg e hov' hfr']
          exact ⟨hlen, hsc⟩
        | ret od =>
          by_cases he : 100 < e
          · rw [tickO_slow g od e hov' hfr' he]
            exact ⟨hlen, hsc⟩
          · have he' : e ≤ 100 := by linarith
            cases od with
            | none =>
              rw [tickO_null g e hov' hfr' he']
              exact ⟨hlen, hsc⟩
            | some d =>
              rw [tickO_move g d e hov' hfr' he']
              dsimp only
              split
              · split
                · exact ⟨hlen, hsc⟩
                · constructor
                  · simp only [List.length_cons]
                    omega
                  · simp only [List.length_cons]
                    omega
              · split
                · exact ⟨hlen, hsc⟩
                · constructor
                  · simp only [List.length_dropLast, List.length_cons]
                    omega
                  · simp only [List.length_dropLast, List.length_cons]
                    omega

/-- Witness for C10 on a freshly constructed game. -/
theorem c10_score_invariant_witness :
    3 ≤ (mkGame 1 25000).snake.length ∧
    (mkGame 1 25000).score = 10 * ((mkGame 1 25000).snake.length - 3) :=
  c10_score_invariant (mkGame 1 25000) (Reachable.init 1 25000)

/-! ## The LCG has no short cycles -/

/-- Closed form of the iterated seed update, mod `2 ^ 31`. -/
theorem nextSeed_iterate_modEq (s : Nat) :
    ∀ m, nextSeed^[m] s ≡ 1103515245 ^ m * s + 12345 * geomS m [MOD 2 ^ 31] := by
  intro m
  induction m with
  | zero => simp [geomS, Nat.ModEq.refl]
  | succ m ih =>
    rw [Function.iterate_succ_apply']
    have h1 : nextSeed (nextSeed^[m] s)
        ≡ nextSeed^[m] s * 1103515245 + 12345 [MOD 2 ^ 31] :=
      Nat.mod_modEq _ _
    have h2 : nextSeed^[m] s * 1103515245 + 12345
        ≡ (1103515245 ^ m * s + 12345 * geomS m) * 1103515245 + 12345
          [MOD 2 ^ 31] :=
      (ih.mul_right _).add_right _
    have h3 : (1103515245 ^ m * s + 12345 * geomS m) * 1103515245 + 12345
        = 1103515245 ^ (m + 1) * s + 12345 * geomS (m + 1) := by
      simp only [geomS]
      ring
    exact (h1.trans h2).trans (h3 ▸ Nat.ModEq.refl _)

/-- Concatenation identity for the geometric partial sums. -/
theorem geomS_add (m n : Nat) :
    geomS (m + n) = geomS n + 1103515245 ^ n * geomS m := by
  induction n with
  | zero => simp [geomS]
  | succ n ih =>
    have h : m + (n + 1) = (m + n) + 1 := by omega
    rw [h]
    simp only [geomS, ih]
    ring

/-- Doubling identity for the geometric partial sums. -/
theorem geomS_two_mul (m : Nat) :
    geomS (2 * m) = geomS m * (1 + 1103515245 ^ m) := by
  have h : 2 * m = m + m := by omega
  rw [h, geomS_add]
  ring

/-- The partial sum has the parity of its length (the multiplier is
odd). -/
theorem geomS_parity (m : Nat) : geomS m % 2 = m % 2 := by
  induction m with
  | zero => rfl
  | succ m ih =>
    simp only [geomS]
    omega

/-- Powers of the multiplier are `1 mod 4`. -/
theorem lcgPow_mod_four (k : Nat) : 1103515245 ^ k % 4 = 1 := by
  induction k with
  | zero => rfl
  | succ k ih =>
    rw [pow_succ, Nat.mul_mod, ih]

/-- Exact 2-adic valuation of the geometric partial sum: for an odd
`q`, `geomS (2 ^ j * q)` is `2 ^ j` times an odd number. -/
theorem geomS_factor : ∀ (j q : Nat), q % 2 = 1 →
    ∃ u, geomS (2 ^ j * q) = 2 ^ j * u ∧ u % 2 = 1 := by
  intro j
  induction j with
  | zero =>
    intro q hq
    refine ⟨geomS q, by simp, ?_⟩
    rw [geomS_parity]
    exact hq
  | succ j ih =>
    intro q hq
    obtain ⟨u, hu, hodd⟩ := ih q hq
    have h1 : 2 ^ (j + 1) * q = 2 * (2 ^ j * q) := by ring
    rw [h1, geomS_two_mul, hu]
    have h4 := lcgPow_mod_four (2 ^ j * q)
    obtain ⟨w, hw, hwodd⟩ : ∃ w, 1 + 1103515245 ^ (2 ^ j * q) = 2 * w ∧ w % 2 = 1 := by
      refine ⟨(1 + 1103515245 ^ (2 ^ j * q)) / 2, ?_, ?_⟩
      · omega
      · omega
    refine ⟨u * w, ?_, ?_⟩
    · rw [hw]
      ring
    · rw [Nat.mul_mod, hodd, hwodd]

/-- The multiplier's powers in terms of the partial sums:
`a ^ m = (a - 1) * geomS m + 1`. -/
theorem lcgPow_eq_geomS (m : Nat) :
    1103515245 ^ m = 1103515244 * geomS m + 1 := by
  induction m with
  | zero => rfl
  | succ m ih =>
    rw [pow_succ, ih]
    simp only [geomS]
    ring

/-- The LCG permutation of 31-bit seeds has full period: no state
returns to itself in fewer than `2 ^ 31` steps (Hull–Dobell, proved via
the exact 2-adic valuation of the geometric sums). -/
theorem lcg_no_short_cycle (x : Nat) (m : Nat)
    (hm0 : 0 < m) (hmN : m < 2 ^ 31) : nextSeed^[m] x ≠ x := by
  intro he
  have hiter := nextSeed_iterate_modEq x m
  rw [he] at hiter
  have hform : 1103515245 ^ m * x + 12345 * geomS m
      = x + geomS m * (1103515244 * x + 12345) := by
    rw [lcgPow_eq_geomS]
    ring
  rw [hform] at hiter
  have hdvd : (2 ^ 31 : Nat) ∣ geomS m * (1103515244 * x + 12345) := by
    have h := (Nat.modEq_iff_dvd'
      (by omega : x ≤ x + geomS m * (1103515244 * x + 12345))).1 hiter
    simpa using h
  obtain ⟨j, q, hq, hm⟩ := Nat.exists_eq_two_pow_mul_odd
    (by omega : m ≠ 0)
  have hq1 : q % 2 = 1 := Nat.odd_iff.1 hq
  obtain ⟨u, hu, huodd⟩ := geomS_factor j q hq1
  have hj : j < 31 := by
    by_contra hj31
    push_neg at hj31
    have h31 : (2 : Nat) ^ 31 ≤ 2 ^ j := Nat.pow_le_pow_right (by norm_num) hj31
    have hq0 : 0 < q := by omega
    have h2 : 2 ^ j ≤ 2 ^ j * q := Nat.le_mul_of_pos_right _ hq0
    omega
  have hwodd : (1103515244 * x + 12345) % 2 = 1 := by omega
  have hrw : geomS m * (1103515244 * x + 12345)
      = 2 ^ j * (u * (1103515244 * x + 12345)) := by
    rw [hm, hu]
    ring
  rw [hrw] at hdvd
  have hdvd2 : (2 ^ (j + 1) : Nat)
      ∣ 2 ^ j * (u * (1103515244 * x + 12345)) :=
    dvd_trans (pow_dvd_pow 2 (by omega : j + 1 ≤ 31)) hdvd
  rw [pow_succ] at hdvd2
  have hdvd3 : 2 ∣ u * (1103515244 * x + 12345) :=
    (Nat.mul_dvd_mul_iff_left (Nat.pos_pow_of_pos j (by norm_num))).1 hdvd2
  have hprododd : (u * (1103515244 * x + 12345)) % 2 = 1 := by
    rw [Nat.mul_mod, huodd, hwodd]
  omega

/-- The forward orbit of `orbitSeed` stays clear of `badSeed` for the
first `2 ^ 31 - 1` steps (far more than any engine run can consume), so
every `next()` call along it returns a value strictly below 1. -/
theorem orbit_ne_badSeed (j : Nat) (hj : j + 1 < 2 ^ 31) :
    nextSeed^[j] orbitSeed ≠ badSeed := by
  intro he
  have h1 : nextSeed^[j + 1] badSeed = badSeed := by
    rw [Function.iterate_succ_apply]
    exact he
  exact lcg_no_short_cycle badSeed (j + 1) (by omega) hj h1

theorem mem_coordRange (v : Int) : v ∈ coordRange ↔ (-8 ≤ v ∧ v ≤ 7) := by
  unfold coordRange
  simp only [List.mem_map, List.mem_range]
  constructor
  · rintro ⟨i, hi, rfl⟩
    omega
  · intro hv
    refine ⟨(v + 8).toNat, by omega, by omega⟩

theorem coordRange_length : coordRange.length = 16 := by
  simp [coordRange]

theorem gridCells_length : gridCells.length = 4096 := by
  unfold gridCells
  rw [List.length_flatMap]
  simp only [Function.comp_def]
  have h1 : (coordRange.map fun x =>
      (coordRange.flatMap fun y =>
        coordRange.map fun z => (⟨x, y, z⟩ : Pos3)).length)
      = coordRange.map fun _ => 256 := by
    apply List.map_congr_left
    intro x _
    rw [List.length_flatMap]
    simp only [Function.comp_def]
    have h2 : (coordRange.map fun y =>
        (coordRange.map fun z => (⟨x, y, z⟩ : Pos3)).length)
        = coordRange.map fun _ => 16 := by
      apply List.map_congr_left
      intro y _
      rw [List.length_map, coordRange_length]
    rw [h2, List.map_const', List.sum_replicate, coordRange_length]
    rfl
  rw [h1, List.map_const', List.sum_replicate, coordRange_length]
  rfl

/-- Membership in the cell enumeration is exactly the grid condition. -/
theorem mem_gridCells (p : Pos3) : p ∈ gridCells ↔ inGrid p := by
  obtain ⟨px, py, pz⟩ := p
  unfold gridCells inGrid
  simp only [List.mem_flatMap, List.mem_map]
  constructor
  · rintro ⟨x, hx, y, hy, z, hz, heq⟩
    rw [mem_coordRange] at hx hy
    rw [mem_coordRange] at hz
    obtain ⟨h1, h2, h3⟩ := Pos3.mk.injEq x y z px py pz ▸ heq
    subst h1
    subst h2
    subst h3
    exact ⟨hx.1, hx.2, hy.1, hy.2, hz.1, hz.2⟩
  · rintro ⟨h1, h2, h3, h4, h5, h6⟩
    exact ⟨px, (mem_coordRange px).2 ⟨h1, h2⟩, py,
      (mem_coordRange py).2 ⟨h3, h4⟩, pz, (mem_coordRange pz).2 ⟨h5, h6⟩, rfl⟩

/-- Each wrapped coordinate lands in `[-8, 7]`. -/
theorem wrapCoord_range (v : Int) : -8 ≤ wrapCoord v ∧ wrapCoord v ≤ 7 := by
  unfold wrapCoord
  have h1 : 0 ≤ (v + 8) % 16 := Int.emod_nonneg _ (by norm_num)
  have h2 : (v + 8) % 16 < 16 := Int.emod_lt_of_pos _ (by norm_num)
  omega

/-- `wrap` always produces a grid cell. -/
theorem wrap_mem_gridCells (p : Pos3) : wrap p ∈ gridCells := by
  rw [mem_gridCells]
  unfold wrap inGrid
  obtain ⟨h1, h2⟩ := wrapCoord_range p.x
  obtain ⟨h3, h4⟩ := wrapCoord_range p.y
  obtain ⟨h5, h6⟩ := wrapCoord_range p.z
  exact ⟨h1, h2, h3, h4, h5, h6⟩

/-- `wrap` fixes in-range coordinates. -/
theorem wrapCoord_eq_self (v : Int) (h1 : -8 ≤ v) (h2 : v ≤ 7) :
    wrapCoord v = v := by
  unfold wrapCoord
  rw [Int.emod_eq_of_lt (by omega) (by omega)]
  omega

/-- `wrap` fixes grid cells. -/
theorem wrap_eq_self (p : Pos3) (h : inGrid p) : wrap p = p := by
  obtain ⟨px, py, pz⟩ := p
  obtain ⟨h1, h2, h3, h4, h5, h6⟩ := h
  unfold wrap
  rw [wrapCoord_eq_self px h1 h2, wrapCoord_eq_self py h3 h4,
    wrapCoord_eq_self pz h5 h6]

/-- The cell enumeration has no duplicates. -/
theorem gridCells_nodup : gridCells.Nodup := by
  have hcr : coordRange.Nodup := by
    refine List.Nodup.map ?_ (List.nodup_range 16)
    intro a b hab
    simp only at hab
    have h2 : (a : Int) = (b : Int) := by linarith
    exact_mod_cast h2
  unfold gridCells
  rw [List.nodup_flatMap]
  refine ⟨?_, ?_⟩
  · intro x _
    rw [List.nodup_flatMap]
    refine ⟨?_, ?_⟩
    · intro y _
      refine List.Nodup.map ?_ hcr
      intro a b hab
      exact congrArg Pos3.z hab
    · refine hcr.imp ?_
      intro y1 y2 hne
      intro p hp1 hp2
      simp only [List.mem_map] at hp1 hp2
      obtain ⟨z1, _, rfl⟩ := hp1
      obtain ⟨z2, _, h2⟩ := hp2
      exact hne (congrArg Pos3.y h2).symm
  · refine hcr.imp ?_
    intro x1 x2 hne
    intro p hp1 hp2
    simp only [List.mem_flatMap, List.mem_map] at hp1 hp2
    obtain ⟨y1, _, z1, _, rfl⟩ := hp1
    obtain ⟨y2, _, z2, _, h2⟩ := hp2
    exact hne (congrArg Pos3.x h2).symm

/-- Pigeonhole: a duplicate-free snake of at most 4095 cells leaves some
grid cell free. -/
theorem exists_free_cell (snake : List Pos3)
    (hlen : snake.length ≤ 4095) : ∃ p ∈ gridCells, p ∉ snake := by
  by_contra hcon
  push_neg at hcon
  have hsub : gridCells ⊆ snake := by
    intro p hp
    exact hcon p hp
  have hle := (gridCells_nodup.subperm hsub).length_le
  rw [gridCells_length] at hle
  omega

/-- A duplicate-free snake of 4096 grid cells covers the whole grid. -/
theorem covers_of_full (snake : List Pos3) (hnd : snake.Nodup)
    (hsub : ∀ p ∈ snake, p ∈ gridCells) (hlen : 4096 ≤ snake.length) :
    ∀ p ∈ gridCells, p ∈ snake := by
  have hsubF : snake.toFinset ⊆ gridCells.toFinset := by
    intro p hp
    rw [List.mem_toFinset] at hp ⊢
    exact hsub p hp
  have hcard1 : snake.toFinset.card = snake.length :=
    List.toFinset_card_of_nodup hnd
  have hcard2 : gridCells.toFinset.card ≤ 4096 := by
    have h := List.toFinset_card_le (l := gridCells)
    rw [gridCells_length] at h
    exact h
  have heq : snake.toFinset = gridCells.toFinset :=
    Finset.eq_of_subset_of_card_le hsubF (by omega)
  intro p hp
  have h2 : p ∈ snake.toFinset := by
    rw [heq, List.mem_toFinset]
    exact hp
  rw [List.mem_toFinset] at h2
  exact h2

/-! ## Spawning along the good RNG orbit -/

/-- A random sample taken on the good orbit is a grid cell and advances
the orbit by exactly three RNG steps. -/
theorem randPos_spec (s n : Nat) (hs : s = nextSeed^[n] orbitSeed)
    (hn : n + 4 < 2 ^ 31) :
    (randPos s).1 ∈ gridCells ∧ (randPos s).2 = nextSeed^[n + 3] orbitSeed := by
  subst hs
  have hb1 : nextSeed (nextSeed^[n] orbitSeed) ≠ 2 ^ 31 - 1 := by
    rw [← Function.iterate_succ_apply' nextSeed n orbitSeed]
    exact orbit_ne_badSeed (n + 1) (by omega)
  have hb2 : nextSeed (nextSeed (nextSeed^[n] orbitSeed)) ≠ 2 ^ 31 - 1 := by
    rw [← Function.iterate_succ_apply' nextSeed n orbitSeed,
      ← Function.iterate_succ_apply' nextSeed (n + 1) orbitSeed]
    exact orbit_ne_badSeed (n + 2) (by omega)
  have hb3 : nextSeed (nextSeed (nextSeed (nextSeed^[n] orbitSeed)))
      ≠ 2 ^ 31 - 1 := by
    rw [← Function.iterate_succ_apply' nextSeed n orbitSeed,
      ← Function.iterate_succ_apply' nextSeed (n + 1) orbitSeed,
      ← Function.iterate_succ_apply' nextSeed (n + 2) orbitSeed]
    exact orbit_ne_badSeed (n + 3) (by omega)
  constructor
  · rw [mem_gridCells]
    unfold randPos inGrid
    dsimp only
    obtain ⟨hx1, hx2⟩ :=
      nextIntVal_bounds (nextSeed^[n] orbitSeed) (-8) 7 (by norm_num) hb1
    obtain ⟨hy1, hy2⟩ :=
      nextIntVal_bounds (nextSeed (nextSeed^[n] orbitSeed)) (-8) 7
        (by norm_num) hb2
    obtain ⟨hz1, hz2⟩ :=
      nextIntVal_bounds (nextSeed (nextSeed (nextSeed^[n] orbitSeed))) (-8) 7
        (by norm_num) hb3
    exact ⟨hx1, hx2, hy1, hy2, hz1, hz2⟩
  · unfold randPos
    dsimp only
    rw [← Function.iterate_succ_apply' nextSeed n orbitSeed,
      ← Function.iterate_succ_apply' nextSeed (n + 1) orbitSeed,
      ← Function.iterate_succ_apply' nextSeed (n + 2) orbitSeed]

/-- Every exit of the sampling loop, started on the good orbit, returns
a grid cell and a seed a bounded number of orbit steps further on. -/
theorem spawnLoop_spec (occ : List Pos3) :
    ∀ (fuel s n : Nat), s = nextSeed^[n] orbitSeed →
      n + 3 * fuel + 4 < 2 ^ 31 →
      (spawnLoop occ fuel s).1 ∈ gridCells ∧
      ∃ m, n ≤ m ∧ m ≤ n + 3 * fuel + 3 ∧
        (spawnLoop occ fuel s).2 = nextSeed^[m] orbitSeed := by
  intro fuel
  induction fuel using Nat.strong_induction_on with
  | _ fuel ih =>
    intro s n hs hbud
    match fuel with
    | 0 =>
      obtain ⟨h1, h2⟩ := randPos_spec s n hs (by omega)
      rw [show spawnLoop occ 0 s = randPos s from by simp [spawnLoop]]
      exact ⟨h1, n + 3, by omega, by omega, h2⟩
    | 1 =>
      obtain ⟨h1, h2⟩ := randPos_spec s n hs (by omega)
      rw [show spawnLoop occ 1 s = randPos s from by simp [spawnLoop]]
      exact ⟨h1, n + 3, by omega, by omega, h2⟩
    | f + 2 =>
      obtain ⟨h1, h2⟩ := randPos_spec s n hs (by omega)
      rw [show spawnLoop occ (f + 2) s
          = if (randPos s).1 ∈ occ then spawnLoop occ (f + 1) (randPos s).2
            else randPos s from by simp [spawnLoop]]
      by_cases hmem : (randPos s).1 ∈ occ
      · rw [if_pos hmem]
        obtain ⟨h3, m, hm1, hm2, hm3⟩ :=
          ih (f + 1) (by omega) (randPos s).2 (n + 3) h2 (by omega)
        exact ⟨h3, m, by omega, by omega, hm3⟩
      · rw [if_neg hmem]
        exact ⟨h1, n + 3, by omega, by omega, h2⟩

/-- `spawnFood`, started on the good orbit, places the food on a grid
cell, advances the orbit by at most 3003 steps, and returns a free cell
unless the snake covers the entire grid. -/
theorem spawnFood_spec (snake : List Pos3) (s n : Nat)
    (hs : s = nextSeed^[n] orbitSeed) (hbud : n + 3004 < 2 ^ 31) :
    (spawnFood snake s).1 ∈ gridCells ∧
    (∃ m, n ≤ m ∧ m ≤ n + 3003 ∧
      (spawnFood snake s).2 = nextSeed^[m] orbitSeed) ∧
    ((spawnFood snake s).1 ∉ snake ∨ ∀ p ∈ gridCells, p ∈ snake) := by
  obtain ⟨hmem, m, hm1, hm2, hseed⟩ := spawnLoop_spec snake 1000 s n hs (by omega)
  unfold spawnFood
  by_cases hr : (spawnLoop snake 1000 s).1 ∈ snake
  · rw [if_pos hr]
    dsimp only
    cases hsf : scanFree snake with
    | some q =>
      have hq1 : q ∈ gridCells := List.mem_of_find?_eq_some hsf
      have hq2 : q ∉ snake := by
        have h := List.find?_some hsf
        simpa using h
      simp only [hsf, Option.getD_some]
      exact ⟨hq1, ⟨m, by omega, by omega, hseed⟩, Or.inl hq2⟩
    | none =>
      have hall : ∀ p ∈ gridCells, p ∈ snake := by
        intro p hp
        have h := List.find?_eq_none.mp hsf p hp
        simpa using h
      simp only [hsf, Option.getD_none]
      refine ⟨?_, ⟨m, by omega, by omega, hseed⟩, Or.inr hall⟩
      rw [mem_gridCells]
      decide
  · rw [if_neg hr]
    exact ⟨hmem, ⟨m, by omega, by omega, hseed⟩, Or.inl hr⟩

/-! ## The greedy-teleport trace -/

/-- Jumping by `dirTo h f` moves the head exactly onto `f`. -/
theorem dirTo_lands (h f : Pos3) :
    (⟨h.x + (dirTo h f).x, h.y + (dirTo h f).y, h.z + (dirTo h f).z⟩ : Pos3)
      = f := by
  obtain ⟨hx, hy, hz⟩ := h
  obtain ⟨fx, fy, fz⟩ := f
  unfold dirTo
  simp only [Pos3.mk.injEq]
  refine ⟨by ring, by ring, by ring⟩

/-- One `greedyTeleport` tick of a running game whose food is a grid
cell off the body: the snake eats, gaining the food cell as new head,
and new food is spawned on the grown body. -/
theorem eat_step (g : GameState)
    (hov : g.gameOver = false) (hfr : g.frame + 1 < g.maxFrames)
    (hfood : g.food ∈ gridCells) (hnotmem : g.food ∉ g.snake) :
    tickA greedyTeleport g
      = { g with frame := g.frame + 1, snake := g.food :: g.snake,
                 score := g.score + 10,
                 food := (spawnFood (g.food :: g.snake) g.seed).1,
                 seed := (spawnFood (g.food :: g.snake) g.seed).2 } := by
  have htick : tickA greedyTeleport g
      = tickO g ⟨.ret (some (dirTo g.snake.headI g.food)), 0⟩ := rfl
  rw [htick, tickO_move g _ 0 hov hfr (by norm_num)]
  dsimp only
  rw [dirTo_lands g.snake.headI g.food,
    wrap_eq_self g.food ((mem_gridCells g.food).1 hfood)]
  rw [if_pos rfl, if_neg hnotmem, if_pos rfl]

/-- Invariant of the greedy-teleport run: through tick 4092 the game is
alive, the snake is a duplicate-free set of `3 + k` grid cells, the food
is a grid cell off the body, and the RNG state stays on the good orbit
with a bounded step count. -/
theorem fullTrace_inv : ∀ k, k ≤ 4092 →
    (fullTrace k).snake.length = 3 + k ∧
    (fullTrace k).snake.Nodup ∧
    (∀ p ∈ (fullTrace k).snake, p ∈ gridCells) ∧
    (fullTrace k).food ∈ gridCells ∧
    (fullTrace k).food ∉ (fullTrace k).snake ∧
    (fullTrace k).gameOver = false ∧
    (fullTrace k).frame = k ∧
    (fullTrace k).maxFrames = 25000 ∧
    ∃ n, n ≤ 3004 * (k + 1) ∧ (fullTrace k).seed = nextSeed^[n] orbitSeed := by
  intro k
  induction k with
  | zero =>
    intro _
    have hsn : (fullTrace 0).snake = initSnake := rfl
    have hfd : (fullTrace 0).food = (spawnFood initSnake orbitSeed).1 := rfl
    have hsd : (fullTrace 0).seed = (spawnFood initSnake orbitSeed).2 := rfl
    obtain ⟨hmem, ⟨m, hm1, hm2, hmseed⟩, hdisj⟩ :=
      spawnFood_spec initSnake orbitSeed 0 rfl (by omega)
    have hnotmem : (spawnFood initSnake orbitSeed).1 ∉ initSnake := by
      rcases hdisj with h | hall
      · exact h
      · obtain ⟨q, hq, hqn⟩ := exists_free_cell initSnake (by decide)
        exact absurd (hall q hq) hqn
    refine ⟨by rw [hsn]; decide, by rw [hsn]; decide, ?_, by rw [hfd]; exact hmem,
      ?_, rfl, rfl, rfl, ?_⟩
    · intro p hp
      rw [hsn] at hp
      rw [mem_gridCells]
      have hall : ∀ q ∈ initSnake, inGrid q := by decide
      exact hall p hp
    · rw [hfd, hsn]
      exact hnotmem
    · exact ⟨m, by omega, by rw [hsd]; exact hmseed⟩
  | succ k ih =>
    intro hk
    obtain ⟨hlen, hnd, hsub, hfood, hnotmem, hov, hfr, hmf, n, hn, hseed⟩ :=
      ih (by omega)
    have hstep : fullTrace (k + 1) = tickA greedyTeleport (fullTrace k) :=
      Function.iterate_succ_apply' _ _ _
    have heat := eat_step (fullTrace k) hov (by omega) hfood hnotmem
    rw [heat] at hstep
    obtain ⟨hmem2, ⟨m, hm1, hm2, hmseed⟩, hdisj⟩ :=
      spawnFood_spec ((fullTrace k).food :: (fullTrace k).snake)
        (fullTrace k).seed n hseed (by omega)
    have hnd2 : ((fullTrace k).food :: (fullTrace k).snake).Nodup :=
      List.nodup_cons.2 ⟨hnotmem, hnd⟩
    have hnotmem2 : (spawnFood ((fullTrace k).food :: (fullTrace k).snake)
        (fullTrace k).seed).1 ∉ (fullTrace k).food :: (fullTrace k).snake := by
      rcases hdisj with h | hall
      · exact h
      · obtain ⟨q, hq, hqn⟩ := exists_free_cell
          ((fullTrace k).food :: (fullTrace k).snake)
          (by simp only [List.length_cons]; omega)
        exact absurd (hall q hq) hqn
    rw [hstep]
    refine ⟨by simp only [List.length_cons]; omega, hnd2, ?_, hmem2,
      hnotmem2, hov, by simp only; omega, hmf, ?_⟩
    · intro p hp
      rcases List.mem_cons.1 hp with h | h
      · rw [h]
        exact hfood
      · exact hsub p h
    · exact ⟨m, by omega, hmseed⟩


/-- Generic final step: a `greedyTeleport` tick of a running game whose
duplicate-free snake already holds 4095 grid cells (food off-body, on
the good orbit) puts the spawned food on the grown body: the 4096-cell
snake covers the grid, so no free cell exists. -/
theorem full_eat_food_mem (g : GameState) (n : Nat)
    (hov : g.gameOver = false) (hfr : g.frame + 1 < g.maxFrames)
    (hfood : g.food ∈ gridCells) (hnotmem : g.food ∉ g.snake)
    (hnd : g.snake.Nodup) (hsub : ∀ p ∈ g.snake, p ∈ gridCells)
    (hlen : 4095 ≤ g.snake.length)
    (hseed : g.seed = nextSeed^[n] orbitSeed) (hbud : n + 3004 < 2 ^ 31) :
    (tickA greedyTeleport g).food ∈ (tickA greedyTeleport g).snake := by
  have heat := eat_step g hov hfr hfood hnotmem
  obtain ⟨hmem2, ⟨m, hm1, hm2, hmseed⟩, hdisj⟩ :=
    spawnFood_spec (g.food :: g.snake) g.seed n hseed hbud
  have hnd2 : (g.food :: g.snake).Nodup := List.nodup_cons.2 ⟨hnotmem, hnd⟩
  have hsub2 : ∀ p ∈ g.food :: g.snake, p ∈ gridCells := by
    intro p hp
    rcases List.mem_cons.1 hp with h | h
    · rw [h]
      exact hfood
    · exact hsub p h
  have hlen2 : 4096 ≤ (g.food :: g.snake).length := by
    rw [List.length_cons]
    omega
  have hcover := covers_of_full _ hnd2 hsub2 hlen2
  rw [heat]
  exact hcover _ hmem2

/-- On tick 4093 the greedy-teleport snake grows to all 4096 grid
cells and the spawned food lands on the body.  (The state
`tickA greedyTeleport (fullTrace 4092)` is `fullTrace 4093`.) -/
theorem fullTrace_4093_food_mem :
    (tickA greedyTeleport (fullTrace 4092)).food
      ∈ (tickA greedyTeleport (fullTrace 4092)).snake := by
  obtain ⟨hlen, hnd, hsub, hfood, hnotmem, hov, hfr, hmf, n, hn, hseed⟩ :=
    fullTrace_inv 4092 (by omega)
  refine full_eat_food_mem (fullTrace 4092) n hov ?_ hfood hnotmem hnd hsub
    ?_ hseed ?_
  · rw [hfr, hmf]
    norm_num
  · rw [hlen]
  · omega

/-- Every prefix of the greedy-teleport run is a reachable engine
state. -/
theorem fullTrace_reachable (k : Nat) : Reachable (fullTrace k) := by
  induction k with
  | zero => exact Reachable.init orbitSeed 25000
  | succ k ih =>
    rw [show fullTrace (k + 1) = tickA greedyTeleport (fullTrace k) from
      Function.iterate_succ_apply' _ _ _]
    exact Reachable.tick _ _ ih

/-- The state after one more greedy tick is reachable. -/
theorem fullTrace_4093_reachable :
    Reachable (tickA greedyTeleport (fullTrace 4092)) :=
  Reachable.tick _ _ (fullTrace_reachable 4092)

/-- **C6, counterexample.** The invariant `food ∉ body` fails on a
reachable state: a decision function returning the (unvalidated)
direction `food - head` eats on every tick; from seed `orbitSeed` the
snake reaches all 4096 grid cells on tick 4093, and `spawnFood` — its
1000 samples all occupied and its scan finding no free cell — places
the food on the occupied cell `(7,7,7)`. -/
theorem c6_counterexample : ∃ g, Reachable g ∧ g.food ∈ g.snake :=
  ⟨tickA greedyTeleport (fullTrace 4092), fullTrace_4093_reachable,
    fullTrace_4093_food_mem⟩

/-- In any reachable state, food on the body forces the body to cover
every grid cell: the only way `spawnFood` returns an occupied cell is a
fully occupied grid, and later ticks can only shed the tail cell when
the head simultaneously re-occupies it. -/
theorem food_on_body_covers (g : GameState) (h : Reachable g) :
    g.food ∈ g.snake → ∀ p ∈ gridCells, p ∈ g.snake := by
  induction h with
  | init s mf => exact spawnFood_mem initSnake s
  | reset g s hg ih =>
    cases s with
    | none => exact spawnFood_mem initSnake g.seed
    | some v => exact spawnFood_mem initSnake v
  | tick g o hg ih =>
    obtain ⟨res, e⟩ := o
    by_cases hov : g.gameOver = true
    · rw [tickO_gameOver g _ hov]
      exact ih
    · have hov' : g.gameOver = false := by simpa using hov
      by_cases hfr : g.maxFrames ≤ g.frame + 1
      · rw [tickO_timeout g _ hov' hfr]
        exact ih
      · have hfr' : g.frame + 1 < g.maxFrames := by omega
        cases res with
        | throw msg =>
          rw [tickO_throw g msg e hov' hfr']
          exact ih
        | ret od =>
          by_cases he : 100 < e
          · rw [tickO_slow g od e hov' hfr' he]
            exact ih
          · have he' : e ≤ 100 := by linarith
            cases od with
            | none =>
              rw [tickO_null g e hov' hfr' he']
              exact ih
            | some d =>
              rw [tickO_move g d e hov' hfr' he']
              have hwg := wrap_mem_gridCells ⟨g.snake.headI.x + d.x,
                g.snake.headI.y + d.y, g.snake.headI.z + d.z⟩
              dsimp only
              generalize hNH : wrap ⟨g.snake.headI.x + d.x,
                g.snake.headI.y + d.y, g.snake.headI.z + d.z⟩ = nh at hwg ⊢
              split
              · split
                · dsimp only
                  exact ih
                · dsimp only
                  intro hf
                  exact spawnFood_mem _ g.seed hf
              · rename_i hwe
                split
                · dsimp only
                  exact ih
                · rename_i hnc
                  dsimp only
                  intro hf
                  have hfsn : g.food ∈ g.snake := by
                    rcases List.mem_cons.1 (List.dropLast_subset _ hf) with
                      hc | hc
                    · exact absurd hc.symm hwe
                    · exact hc
                  have hcover := ih hfsn
                  have hnil : g.snake ≠ [] := by
                    intro hempty
                    have h0 := hcover ⟨0, 0, 0⟩ (by decide)
                    rw [hempty] at h0
                    exact absurd h0 (List.not_mem_nil _)
                  have hnewMem : nh ∈ g.snake := hcover _ hwg
                  have hdecomp := List.dropLast_append_getLast hnil
                  have hnewLast : nh = g.snake.getLast hnil := by
                    have h2 := hnewMem
                    rw [← hdecomp, List.mem_append] at h2
                    rcases h2 with h3 | h3
                    · exact absurd h3 hnc
                    · simpa using h3
                  have hsnake2 : (nh :: g.snake).dropLast
                      = nh :: g.snake.dropLast := by
                    conv =>
                      lhs
                      rw [← hdecomp]
                    rw [← List.cons_append, List.dropLast_concat]
                  rw [hsnake2]
                  intro p hp
                  have hpmem := hcover p hp
                  rw [← hdecomp, List.mem_append] at hpmem
                  rcases hpmem with h2 | h2
                  · exact List.mem_cons_of_mem _ h2
                  · simp only [List.mem_singleton] at h2
                    rw [h2, ← hnewLast]
                    exact List.mem_cons_self _ _

/-- **C6, amended.** In every reachable engine state in which the body
does not cover the entire 4096-cell grid — every state arising in a
game that has not filled the grid — the food is not on the body;
equally, food is only ever placed on an occupied cell at a spawn when
no free cell exists. -/
theorem c6_food_not_on_body (g : GameState) (h : Reachable g)
    (hfree : ∃ p ∈ gridCells, p ∉ g.snake) : g.food ∉ g.snake := by
  intro hf
  obtain ⟨p, hp, hnp⟩ := hfree
  exact hnp (food_on_body_covers g h hf p hp)

/-- Witness for C6's amended statement on a fresh game with seed 1. -/
theorem c6_food_not_on_body_witness :
    ((⟨-8, -8, -8⟩ : Pos3) ∈ gridCells ∧
     (⟨-8, -8, -8⟩ : Pos3) ∉ (mkGame 1 25000).snake) ∧
    (mkGame 1 25000).food ∉ (mkGame 1 25000).snake :=
  ⟨⟨by decide, by decide⟩,
    c6_food_not_on_body (mkGame 1 25000) (Reachable.init 1 25000)
      ⟨⟨-8, -8, -8⟩, by decide, by decide⟩⟩
